import Mathlib

/-!
# Recording mock of the resource operations (`pkg/utils/kube/kubetest`)

A shallow embedding of `mock_resource_operations.go`.  The mock keeps, per
resource key, the ordered list of commands that were invoked on it and answers
every command from a table of canned responses indexed by the object's name.

Conventions of the embedding:

* a Go map is a finite association list with unique keys (`AList`); reading a
  missing key yields the zero value of the element type;
* a Go map that may be `nil` is an `Option` of such a list;
* a Go `error` is an `Option String`, `none` being `nil`;
* a method with a pointer receiver that writes to the receiver returns the new
  receiver next to its results;
* an expression that panics at run time (index out of range) evaluates to
  `none`;
* the methods of `MockResourceOps` give the data of the mock and the results;
  `recordLock` is kept apart: `Call.lockMode` has the mode in which each method
  takes it, and `LockedMock` has the methods with the lock and with the way a
  call ends (it returns, it panics, or it blocks).
-/

set_option linter.unusedVariables false

namespace Kubetest

/-! ## Data model -/

/-- Go `error` values: `none` is `nil`, `some msg` an error carrying `msg`. -/
abbrev GoError := Option String

/-- Go `context.Context`; no method of the mock inspects it. -/
abbrev Context := Unit

/-- Dry-run strategy of kubectl (`cmdutil.DryRunStrategy`): `DryRunNone` is the
zero value. -/
inductive DryRunStrategy where
  | DryRunNone
  | DryRunClient
  | DryRunServer
deriving DecidableEq, Repr

instance : Inhabited DryRunStrategy := ⟨DryRunStrategy.DryRunNone⟩

/-- Modelled from the spec: `kube.ResourceKey` is declared outside this file; it
is the identity tuple (group, kind, namespace, name) and is comparable. -/
structure ResourceKey where
  Group : String
  Kind : String
  Namespace : String
  Name : String
deriving DecidableEq, Repr

/-- Group, version and kind of an object (`schema.GroupVersionKind`). -/
structure GroupVersionKind where
  Group : String
  Version : String
  Kind : String
deriving DecidableEq, Repr

/-- An object handed to the mock (`unstructured.Unstructured`): the data from
which its identity is derived, and the remaining content as uninterpreted
key/value pairs. -/
structure Unstructured where
  Group : String
  Version : String
  Kind : String
  Namespace : String
  Name : String
  Object : List (String × String) := []
deriving DecidableEq, Repr

/-- The name of an object (`obj.GetName()`). -/
def Unstructured.GetName (obj : Unstructured) : String := obj.Name

/-- The namespace of an object (`obj.GetNamespace()`). -/
def Unstructured.GetNamespace (obj : Unstructured) : String := obj.Namespace

/-- The group/version/kind of an object (`obj.GroupVersionKind()`). -/
def Unstructured.GroupVersionKind (obj : Unstructured) : GroupVersionKind :=
  { Group := obj.Group, Version := obj.Version, Kind := obj.Kind }

/-- Modelled from the spec: `kube.GetResourceKey` is declared outside this file;
it derives the identity tuple (group, kind, namespace, name) from the object. -/
def GetResourceKey (obj : Unstructured) : ResourceKey :=
  { Group := obj.GroupVersionKind.Group
    Kind := obj.GroupVersionKind.Kind
    Namespace := obj.GetNamespace
    Name := obj.GetName }

/-- Modelled from the spec: `KubectlOutput` is declared in another file of the
package; it is the canned (output string, error) pair. -/
structure KubectlOutput where
  Output : String
  Err : GoError
deriving DecidableEq, Repr

/-- One recorded invocation.  A field left out of a composite literal holds the
zero value of its type. -/
structure RegisteredCommand where
  Command : String := ""
  Validate : Bool := false
  ServerSideApply : Bool := false
  ServerSideApplyManager : String := ""
  Force : Bool := false
  DryRunStrategy : DryRunStrategy := DryRunStrategy.DryRunNone
deriving DecidableEq, Repr

/-- Connection settings (`rest.Config`); only passed through. -/
structure RestConfig where
  Host : String
deriving DecidableEq, Repr

/-- Signature of the injectable "get resource" function. -/
abbrev GetResourceFunc :=
  Context → RestConfig → GroupVersionKind → String → String → Option Unstructured × GoError

/-- Table of canned responses, indexed by object name. -/
abbrev CommandTable := AList (fun _ : String => KubectlOutput)

/-- Call history: per resource key, the commands in the order they were
recorded. -/
abbrev CommandHistory := AList (fun _ : ResourceKey => List RegisteredCommand)

/-- State of the mock.  `Events` and `DynamicClient` are never read or written
by the methods below and are left out; `commandsPerResource` is `none` while
the map is `nil`. -/
structure MockResourceOps where
  Commands : CommandTable
  commandsPerResource : Option CommandHistory := none
  getResourceFunc : Option GetResourceFunc := none

namespace MockResourceOps

/-! ## Methods -/

/-- The map read `r.commandsPerResource[key]`: the zero value (an empty slice)
when the map is `nil` or has no entry for `key`. -/
def commandsPerResourceAt (r : MockResourceOps) (key : ResourceKey) : List RegisteredCommand :=
  match r.commandsPerResource with
  | none => []
  | some m => (m.lookup key).getD []

/-- Stores the given get-resource function in `getResourceFunc` and returns the
receiver.  The comment in the source speaks of overriding `ConvertToVersion`,
a method that only exists commented out; the embedding follows the code. -/
def WithGetResourceFunc (r : MockResourceOps) (getResourcefunc : GetResourceFunc) :
    MockResourceOps :=
  { r with getResourceFunc := some getResourcefunc }

/-- The element at index `len - 1` of the history of `key`; `none` when the
index is out of range, where the source panics. -/
def lastCommand (r : MockResourceOps) (key : ResourceKey) : Option RegisteredCommand :=
  let cmds := r.commandsPerResourceAt key
  let i : Int := (cmds.length : Int) - 1
  if 0 ≤ i ∧ i < (cmds.length : Int) then cmds[i.toNat]? else none

def GetLastValidate (r : MockResourceOps) (key : ResourceKey) : Option Bool :=
  (r.lastCommand key).map (fun c => c.Validate)

def GetLastServerSideApplyManager (r : MockResourceOps) (key : ResourceKey) : Option String :=
  (r.lastCommand key).map (fun c => c.ServerSideApplyManager)

def GetLastServerSideApply (r : MockResourceOps) (key : ResourceKey) : Option Bool :=
  (r.lastCommand key).map (fun c => c.ServerSideApply)

def GetLastForce (r : MockResourceOps) (key : ResourceKey) : Option Bool :=
  (r.lastCommand key).map (fun c => c.Force)

def GetLastResourceCommand (r : MockResourceOps) (key : ResourceKey) : Option String :=
  match r.commandsPerResource with
  | none => some ""
  | some _ => (r.lastCommand key).map (fun c => c.Command)

def RegisteredCommands (r : MockResourceOps) (key : ResourceKey) : List RegisteredCommand :=
  r.commandsPerResourceAt key

/-- Appends `cmd` to the history of `key`, creating the map first when it is
`nil`. -/
def registerCommand (r : MockResourceOps) (key : ResourceKey) (cmd : RegisteredCommand) :
    MockResourceOps :=
  let m : CommandHistory :=
    match r.commandsPerResource with
    | none => ∅
    | some m => m
  { r with commandsPerResource := some (m.insert key ((m.lookup key).getD [] ++ [cmd])) }

def ApplyResource (r : MockResourceOps) (ctx : Context) (obj : Unstructured)
    (dryRunStrategy : DryRunStrategy) (force validate serverSideApply : Bool)
    (manager : String) (serverSideDiff : Bool) : MockResourceOps × String × GoError :=
  let r := r.registerCommand (GetResourceKey obj)
    { Command := "apply"
      Validate := validate
      ServerSideApply := serverSideApply
      ServerSideApplyManager := manager
      Force := force
      DryRunStrategy := dryRunStrategy }
  match r.Commands.lookup obj.GetName with
  | none => (r, "", none)
  | some command => (r, command.Output, command.Err)

def ReplaceResource (r : MockResourceOps) (ctx : Context) (obj : Unstructured)
    (dryRunStrategy : DryRunStrategy) (force : Bool) : MockResourceOps × String × GoError :=
  let r := r.registerCommand (GetResourceKey obj)
    { Command := "replace"
      Force := force
      DryRunStrategy := dryRunStrategy }
  match r.Commands.lookup obj.GetName with
  | none => (r, "", none)
  | some command => (r, command.Output, command.Err)

def UpdateResource (r : MockResourceOps) (ctx : Context) (obj : Unstructured)
    (dryRunStrategy : DryRunStrategy) : MockResourceOps × Unstructured × GoError :=
  let r := r.registerCommand (GetResourceKey obj)
    { Command := "update"
      DryRunStrategy := dryRunStrategy }
  match r.Commands.lookup obj.GetName with
  | none => (r, obj, none)
  | some command => (r, obj, command.Err)

def CreateResource (r : MockResourceOps) (ctx : Context) (obj : Unstructured)
    (dryRunStrategy : DryRunStrategy) (validate : Bool) : MockResourceOps × String × GoError :=
  let r := r.registerCommand (GetResourceKey obj)
    { Command := "create"
      Validate := validate
      DryRunStrategy := dryRunStrategy }
  match r.Commands.lookup obj.GetName with
  | none => (r, "", none)
  | some command => (r, command.Output, command.Err)

/-! ## Invocations as data -/

/-- One invocation of a recording operation together with its arguments. -/
inductive Operation where
  | Create (ctx : Context) (obj : Unstructured) (dryRunStrategy : DryRunStrategy)
      (validate : Bool)
  | Apply (ctx : Context) (obj : Unstructured) (dryRunStrategy : DryRunStrategy)
      (force validate serverSideApply : Bool) (manager : String) (serverSideDiff : Bool)
  | Replace (ctx : Context) (obj : Unstructured) (dryRunStrategy : DryRunStrategy)
      (force : Bool)
  | Update (ctx : Context) (obj : Unstructured) (dryRunStrategy : DryRunStrategy)

/-- The object an invocation is about. -/
def Operation.obj : Operation → Unstructured
  | .Create _ obj _ _ => obj
  | .Apply _ obj _ _ _ _ _ _ => obj
  | .Replace _ obj _ _ => obj
  | .Update _ obj _ => obj

/-- The mock after an invocation (the results are dropped). -/
def invoke (r : MockResourceOps) : Operation → MockResourceOps
  | .Create ctx obj dryRunStrategy validate =>
    (r.CreateResource ctx obj dryRunStrategy validate).1
  | .Apply ctx obj dryRunStrategy force validate serverSideApply manager serverSideDiff =>
    (r.ApplyResource ctx obj dryRunStrategy force validate serverSideApply manager
      serverSideDiff).1
  | .Replace ctx obj dryRunStrategy force =>
    (r.ReplaceResource ctx obj dryRunStrategy force).1
  | .Update ctx obj dryRunStrategy =>
    (r.UpdateResource ctx obj dryRunStrategy).1

/-- The mock after a sequence of invocations, first to last. -/
def invokeAll (r : MockResourceOps) (ops : List Operation) : MockResourceOps :=
  ops.foldl invoke r

/-- The composite literal each operation hands to `registerCommand`. -/
def Operation.registered : Operation → RegisteredCommand
  | .Create _ _ dryRunStrategy validate =>
    { Command := "create", Validate := validate, DryRunStrategy := dryRunStrategy }
  | .Apply _ _ dryRunStrategy force validate serverSideApply manager _ =>
    { Command := "apply", Validate := validate, ServerSideApply := serverSideApply,
      ServerSideApplyManager := manager, Force := force, DryRunStrategy := dryRunStrategy }
  | .Replace _ _ dryRunStrategy force =>
    { Command := "replace", Force := force, DryRunStrategy := dryRunStrategy }
  | .Update _ _ dryRunStrategy =>
    { Command := "update", DryRunStrategy := dryRunStrategy }

/-- A call of any public method of the mock. -/
inductive Call where
  | Op (op : Operation)
  | WithGetResourceFunc (getResourcefunc : GetResourceFunc)
  | GetLastValidate (key : ResourceKey)
  | GetLastServerSideApplyManager (key : ResourceKey)
  | GetLastServerSideApply (key : ResourceKey)
  | GetLastForce (key : ResourceKey)
  | GetLastResourceCommand (key : ResourceKey)
  | RegisteredCommands (key : ResourceKey)

/-- The data of the mock after a call of a public method, whether the call
returns or panics: the accessors only read.  What the call does to
`recordLock`, and whether it returns at all, is the subject of
`LockedMock.call`. -/
def call (r : MockResourceOps) : Call → MockResourceOps
  | .Op op => r.invoke op
  | .WithGetResourceFunc getResourcefunc => r.WithGetResourceFunc getResourcefunc
  | .GetLastValidate _ => r
  | .GetLastServerSideApplyManager _ => r
  | .GetLastServerSideApply _ => r
  | .GetLastForce _ => r
  | .GetLastResourceCommand _ => r
  | .RegisteredCommands _ => r

/-- Data states of the mock that a client of the package can produce: a
composite literal that sets the exported table only, followed by calls of
public methods.  A call that does not write the data contributes no new state;
these are the data states that sequences of calls with the lock arrive at
(`LockedMock.reachable_of_callAll`, `LockedMock.callAll_of_reachable`). -/
inductive Reachable : MockResourceOps → Prop where
  | fresh (commands : CommandTable) : Reachable { Commands := commands }
  | step {r : MockResourceOps} (c : Call) : Reachable r → Reachable (r.call c)

/-- The error `err` returned for `obj` is the canned one: the `Err` of the entry
of the table for the object's name, `nil` without an entry, and therefore
non-`nil` exactly when an entry with a non-`nil` `Err` exists. -/
def ErrIsCanned (r : MockResourceOps) (obj : Unstructured) (err : GoError) : Prop :=
  (∀ out, r.Commands.lookup obj.GetName = some out → err = out.Err) ∧
  (r.Commands.lookup obj.GetName = none → err = none) ∧
  (err ≠ none ↔ ∃ out, r.Commands.lookup obj.GetName = some out ∧ out.Err ≠ none)

/-- The key under which a call records a command: the key of the object for the
four recording operations, none for the other public methods. -/
def Call.recordedKey : Call → Option ResourceKey
  | .Op op => some (GetResourceKey op.obj)
  | .WithGetResourceFunc _ => none
  | .GetLastValidate _ => none
  | .GetLastServerSideApplyManager _ => none
  | .GetLastServerSideApply _ => none
  | .GetLastForce _ => none
  | .GetLastResourceCommand _ => none
  | .RegisteredCommands _ => none

/-- Every key present in the history map has a non-empty history. -/
def EntriesNonEmpty (r : MockResourceOps) : Prop :=
  ∀ m, r.commandsPerResource = some m → ∀ k v, m.lookup k = some v → v ≠ []

/-! ## Use of `recordLock` -/

/-- The two ways of taking a `sync.RWMutex`: `RLock` takes it in shared mode,
`Lock` in exclusive mode. -/
inductive LockMode where
  | shared
  | exclusive
deriving DecidableEq, Repr

/-- The mode in which `registerCommand` takes `recordLock`
(`r.recordLock.Lock()`). -/
def registerCommandLockMode : LockMode := LockMode.exclusive

/-- The mode in which a call of a public method takes `recordLock`, read off the
first statement of the method; the recording operations take it through
`registerCommand`, and `WithGetResourceFunc` does not take it. -/
def Call.lockMode : Call → Option LockMode
  | .Op _ => some registerCommandLockMode
  | .WithGetResourceFunc _ => none
  | .GetLastValidate _ => some LockMode.shared
  | .GetLastServerSideApplyManager _ => some LockMode.exclusive
  | .GetLastServerSideApply _ => some LockMode.shared
  | .GetLastForce _ => some LockMode.shared
  | .GetLastResourceCommand _ => some LockMode.exclusive
  | .RegisteredCommands _ => some LockMode.shared

/-- The read accessors of the call history. -/
def Call.isAccessor : Call → Bool
  | .Op _ => false
  | .WithGetResourceFunc _ => false
  | .GetLastValidate _ => true
  | .GetLastServerSideApplyManager _ => true
  | .GetLastServerSideApply _ => true
  | .GetLastForce _ => true
  | .GetLastResourceCommand _ => true
  | .RegisteredCommands _ => true

end MockResourceOps

/-! ## Calls with `recordLock`

The methods again, this time with the lock and with the three ways a call can
end.  The calls are made one after another by a single goroutine, so the lock
is only ever held by an earlier call that panicked before releasing it. -/

/-- State of `recordLock` (a `sync.RWMutex`): the number of read locks held and
whether the write lock is held. -/
structure RWMutex where
  readers : Nat := 0
  writer : Bool := false
deriving DecidableEq, Repr

namespace RWMutex

/-- Takes a read lock; `none` when the caller blocks, which it does while the
write lock is held. -/
def RLock (m : RWMutex) : Option RWMutex :=
  if m.writer then none else some { m with readers := m.readers + 1 }

/-- Releases a read lock. -/
def RUnlock (m : RWMutex) : RWMutex :=
  { m with readers := m.readers - 1 }

/-- Takes the write lock; `none` when the caller blocks, which it does while the
write lock or a read lock is held. -/
def Lock (m : RWMutex) : Option RWMutex :=
  if m.writer ∨ 0 < m.readers then none else some { m with writer := true }

/-- Releases the write lock. -/
def Unlock (m : RWMutex) : RWMutex :=
  { m with writer := false }

end RWMutex

/-- The mock together with the state of its `recordLock`. -/
structure LockedMock where
  mock : MockResourceOps
  recordLock : RWMutex := {}

/-- How a call ends: it returns a value, it panics, or it blocks forever (with
no other goroutine to release the lock, the run ends there).  The first two
leave a state behind. -/
inductive Outcome (α : Type) where
  | returned (value : α) (s : LockedMock)
  | panicked (s : LockedMock)
  | blocked

/-- The state in which the caller goes on after a call: the state left by a
return or by a panic the caller recovers from; none when the call blocks. -/
def Outcome.next {α : Type} : Outcome α → Option LockedMock
  | .returned _ s => some s
  | .panicked s => some s
  | .blocked => none

/-- The outcome without the returned value. -/
def Outcome.discard {α : Type} : Outcome α → Outcome Unit
  | .returned _ s => .returned () s
  | .panicked s => .panicked s
  | .blocked => .blocked

namespace LockedMock

/-- A freshly constructed mock: only the table is set, the lock is free. -/
def fresh (commands : CommandTable) : LockedMock :=
  { mock := { Commands := commands } }

def WithGetResourceFunc (s : LockedMock) (getResourcefunc : GetResourceFunc) :
    Outcome Unit :=
  .returned () { s with mock := s.mock.WithGetResourceFunc getResourcefunc }

/-- `RLock`, read the field of the last command, `RUnlock`; the unlock is not
deferred, so a panic of `lastCommand` leaves the read lock held. -/
def GetLastValidate (s : LockedMock) (key : ResourceKey) : Outcome Bool :=
  match s.recordLock.RLock with
  | none => .blocked
  | some held =>
    match s.mock.lastCommand key with
    | none => .panicked { s with recordLock := held }
    | some cmd => .returned cmd.Validate { s with recordLock := held.RUnlock }

/-- `Lock`, read the field of the last command, `Unlock`; the unlock is not
deferred, so a panic of `lastCommand` leaves the write lock held. -/
def GetLastServerSideApplyManager (s : LockedMock) (key : ResourceKey) : Outcome String :=
  match s.recordLock.Lock with
  | none => .blocked
  | some held =>
    match s.mock.lastCommand key with
    | none => .panicked { s with recordLock := held }
    | some cmd => .returned cmd.ServerSideApplyManager { s with recordLock := held.Unlock }

def GetLastServerSideApply (s : LockedMock) (key : ResourceKey) : Outcome Bool :=
  match s.recordLock.RLock with
  | none => .blocked
  | some held =>
    match s.mock.lastCommand key with
    | none => .panicked { s with recordLock := held }
    | some cmd => .returned cmd.ServerSideApply { s with recordLock := held.RUnlock }

def GetLastForce (s : LockedMock) (key : ResourceKey) : Outcome Bool :=
  match s.recordLock.RLock with
  | none => .blocked
  | some held =>
    match s.mock.lastCommand key with
    | none => .panicked { s with recordLock := held }
    | some cmd => .returned cmd.Force { s with recordLock := held.RUnlock }

/-- `Lock` with a deferred `Unlock`, which also runs when `lastCommand` panics. -/
def GetLastResourceCommand (s : LockedMock) (key : ResourceKey) : Outcome String :=
  match s.recordLock.Lock with
  | none => .blocked
  | some held =>
    match s.mock.commandsPerResource with
    | none => .returned "" { s with recordLock := held.Unlock }
    | some _ =>
      match s.mock.lastCommand key with
      | none => .panicked { s with recordLock := held.Unlock }
      | some cmd => .returned cmd.Command { s with recordLock := held.Unlock }

/-- `RLock`, the map read, `RUnlock`; the map read cannot panic. -/
def RegisteredCommands (s : LockedMock) (key : ResourceKey) :
    Outcome (List RegisteredCommand) :=
  match s.recordLock.RLock with
  | none => .blocked
  | some held =>
    .returned (s.mock.commandsPerResourceAt key) { s with recordLock := held.RUnlock }

/-- `Lock`, the append, `Unlock`. -/
def registerCommand (s : LockedMock) (key : ResourceKey) (cmd : RegisteredCommand) :
    Outcome Unit :=
  match s.recordLock.Lock with
  | none => .blocked
  | some held =>
    .returned () { mock := s.mock.registerCommand key cmd, recordLock := held.Unlock }

def ApplyResource (s : LockedMock) (ctx : Context) (obj : Unstructured)
    (dryRunStrategy : DryRunStrategy) (force validate serverSideApply : Bool)
    (manager : String) (serverSideDiff : Bool) : Outcome (String × GoError) :=
  match s.registerCommand (GetResourceKey obj)
      { Command := "apply"
        Validate := validate
        ServerSideApply := serverSideApply
        ServerSideApplyManager := manager
        Force := force
        DryRunStrategy := dryRunStrategy } with
  | .blocked => .blocked
  | .panicked s1 => .panicked s1
  | .returned _ s1 =>
    match s1.mock.Commands.lookup obj.GetName with
    | none => .returned ("", none) s1
    | some command => .returned (command.Output, command.Err) s1

def ReplaceResource (s : LockedMock) (ctx : Context) (obj : Unstructured)
    (dryRunStrategy : DryRunStrategy) (force : Bool) : Outcome (String × GoError) :=
  match s.registerCommand (GetResourceKey obj)
      { Command := "replace"
        Force := force
        DryRunStrategy := dryRunStrategy } with
  | .blocked => .blocked
  | .panicked s1 => .panicked s1
  | .returned _ s1 =>
    match s1.mock.Commands.lookup obj.GetName with
    | none => .returned ("", none) s1
    | some command => .returned (command.Output, command.Err) s1

def UpdateResource (s : LockedMock) (ctx : Context) (obj : Unstructured)
    (dryRunStrategy : DryRunStrategy) : Outcome (Unstructured × GoError) :=
  match s.registerCommand (GetResourceKey obj)
      { Command := "update"
        DryRunStrategy := dryRunStrategy } with
  | .blocked => .blocked
  | .panicked s1 => .panicked s1
  | .returned _ s1 =>
    match s1.mock.Commands.lookup obj.GetName with
    | none => .returned (obj, none) s1
    | some command => .returned (obj, command.Err) s1

def CreateResource (s : LockedMock) (ctx : Context) (obj : Unstructured)
    (dryRunStrategy : DryRunStrategy) (validate : Bool) : Outcome (String × GoError) :=
  match s.registerCommand (GetResourceKey obj)
      { Command := "create"
        Validate := validate
        DryRunStrategy := dryRunStrategy } with
  | .blocked => .blocked
  | .panicked s1 => .panicked s1
  | .returned _ s1 =>
    match s1.mock.Commands.lookup obj.GetName with
    | none => .returned ("", none) s1
    | some command => .returned (command.Output, command.Err) s1

/-- The outcome of one invocation of a recording operation. -/
def invoke (s : LockedMock) : MockResourceOps.Operation → Outcome Unit
  | .Create ctx obj dryRunStrategy validate =>
    (s.CreateResource ctx obj dryRunStrategy validate).discard
  | .Apply ctx obj dryRunStrategy force validate serverSideApply manager serverSideDiff =>
    (s.ApplyResource ctx obj dryRunStrategy force validate serverSideApply manager
      serverSideDiff).discard
  | .Replace ctx obj dryRunStrategy force =>
    (s.ReplaceResource ctx obj dryRunStrategy force).discard
  | .Update ctx obj dryRunStrategy =>
    (s.UpdateResource ctx obj dryRunStrategy).discard

/-- The outcome of one call of a public method. -/
def call (s : LockedMock) : MockResourceOps.Call → Outcome Unit
  | .Op op => s.invoke op
  | .WithGetResourceFunc getResourcefunc => s.WithGetResourceFunc getResourcefunc
  | .GetLastValidate key => (s.GetLastValidate key).discard
  | .GetLastServerSideApplyManager key => (s.GetLastServerSideApplyManager key).discard
  | .GetLastServerSideApply key => (s.GetLastServerSideApply key).discard
  | .GetLastForce key => (s.GetLastForce key).discard
  | .GetLastResourceCommand key => (s.GetLastResourceCommand key).discard
  | .RegisteredCommands key => (s.RegisteredCommands key).discard

/-- The state after a sequence of calls, first to last: after a return or a
recovered panic the next call is made, in the state the call left; a call that
blocks ends the sequence without a state. -/
def callAll (s : LockedMock) : List MockResourceOps.Call → Option LockedMock
  | [] => some s
  | c :: calls =>
    match (s.call c).next with
    | none => none
    | some s1 => callAll s1 calls

/-- Whether every call of the sequence returns, none panicking or blocking. -/
def allReturn (s : LockedMock) : List MockResourceOps.Call → Bool
  | [] => true
  | c :: calls =>
    match s.call c with
    | .returned _ s1 => allReturn s1 calls
    | .panicked _ => false
    | .blocked => false

end LockedMock

/-! ## Sample data -/

/-- Sample object named `foo` in namespace `default`. -/
def fooPod : Unstructured :=
  { Group := "", Version := "v1", Kind := "Pod", Namespace := "default", Name := "foo" }

/-- Sample object that shares the name `foo` but is of another kind. -/
def fooService : Unstructured :=
  { Group := "", Version := "v1", Kind := "Service", Namespace := "default", Name := "foo" }

/-- Sample object with another name. -/
def barPod : Unstructured :=
  { Group := "", Version := "v1", Kind := "Pod", Namespace := "default", Name := "bar" }

/-- Sample table with one canned response, for the name `foo`. -/
def fooCreated : CommandTable :=
  (∅ : CommandTable).insert "foo" { Output := "created", Err := none }

/-- Sample table with a canned error for the name `foo`. -/
def fooFails : CommandTable :=
  (∅ : CommandTable).insert "foo" { Output := "", Err := some "boom" }

/-! ## Auxiliary facts -/

namespace MockResourceOps

theorem commandsPerResourceAt_registerCommand (r : MockResourceOps) (key : ResourceKey)
    (cmd : RegisteredCommand) (k : ResourceKey) :
    (r.registerCommand key cmd).commandsPerResourceAt k =
      if k = key then r.commandsPerResourceAt key ++ [cmd] else r.commandsPerResourceAt k := by
  unfold registerCommand commandsPerResourceAt
  by_cases hk : k = key
  · subst hk
    cases r.commandsPerResource <;>
      simp only [AList.lookup_insert, AList.lookup_empty, Option.getD_some, Option.getD_none,
        if_true]
  · cases r.commandsPerResource <;>
      simp only [AList.lookup_insert_ne hk, AList.lookup_empty, Option.getD_none, hk, if_false]

theorem Commands_registerCommand (r : MockResourceOps) (key : ResourceKey)
    (cmd : RegisteredCommand) : (r.registerCommand key cmd).Commands = r.Commands := rfl

theorem commandsPerResource_registerCommand_ne_none (r : MockResourceOps) (key : ResourceKey)
    (cmd : RegisteredCommand) : (r.registerCommand key cmd).commandsPerResource ≠ none := by
  simp [registerCommand]

theorem lastCommand_eq_getLast? (r : MockResourceOps) (key : ResourceKey) :
    r.lastCommand key = (r.commandsPerResourceAt key).getLast? := by
  unfold lastCommand
  generalize r.commandsPerResourceAt key = cmds
  rcases List.eq_nil_or_concat cmds with h | ⟨init, last, h⟩
  · subst h; simp
  · subst h
    have h1 : (0 : Int) ≤ (init.length : Int) := Int.ofNat_nonneg _
    simp [h1]

theorem lastCommand_of_ne_nil (r : MockResourceOps) (key : ResourceKey)
    (h : r.commandsPerResourceAt key ≠ []) :
    r.lastCommand key = some ((r.commandsPerResourceAt key).getLast h) := by
  rw [lastCommand_eq_getLast?, List.getLast?_eq_getLast _ h]

theorem lastCommand_eq_none_iff (r : MockResourceOps) (key : ResourceKey) :
    r.lastCommand key = none ↔ r.commandsPerResourceAt key = [] := by
  rw [lastCommand_eq_getLast?, List.getLast?_eq_none_iff]

theorem invoke_eq_registerCommand (r : MockResourceOps) (op : Operation) :
    r.invoke op = r.registerCommand (GetResourceKey op.obj) op.registered := by
  cases op <;>
    simp only [invoke, CreateResource, ApplyResource, ReplaceResource, UpdateResource,
      Operation.obj, Operation.registered] <;>
    split <;> rfl

theorem RegisteredCommands_invoke (r : MockResourceOps) (op : Operation) (k : ResourceKey) :
    (r.invoke op).RegisteredCommands k =
      if k = GetResourceKey op.obj then r.RegisteredCommands k ++ [op.registered]
      else r.RegisteredCommands k := by
  rw [invoke_eq_registerCommand]
  unfold RegisteredCommands
  rw [commandsPerResourceAt_registerCommand]
  by_cases hk : k = GetResourceKey op.obj
  · subst hk; simp
  · simp [hk]

theorem RegisteredCommands_invokeAll_same (k : ResourceKey) (ops : List Operation) :
    ∀ r : MockResourceOps, (∀ op ∈ ops, GetResourceKey op.obj = k) →
      (r.invokeAll ops).RegisteredCommands k =
        r.RegisteredCommands k ++ ops.map Operation.registered := by
  induction ops with
  | nil => intro r _; simp [invokeAll]
  | cons op ops ih =>
    intro r h
    have hop : GetResourceKey op.obj = k := h op (List.mem_cons_self _ _)
    have htl : ∀ o ∈ ops, GetResourceKey o.obj = k :=
      fun o ho => h o (List.mem_cons_of_mem _ ho)
    have step := ih (r.invoke op) htl
    simp only [invokeAll, List.foldl_cons] at step ⊢
    rw [step, RegisteredCommands_invoke, if_pos hop.symm]
    simp

theorem RegisteredCommands_invokeAll_other (k : ResourceKey) (ops : List Operation) :
    ∀ r : MockResourceOps, (∀ op ∈ ops, GetResourceKey op.obj ≠ k) →
      (r.invokeAll ops).RegisteredCommands k = r.RegisteredCommands k := by
  induction ops with
  | nil => intro r _; simp [invokeAll]
  | cons op ops ih =>
    intro r h
    have hop : GetResourceKey op.obj ≠ k := h op (List.mem_cons_self _ _)
    have htl : ∀ o ∈ ops, GetResourceKey o.obj ≠ k :=
      fun o ho => h o (List.mem_cons_of_mem _ ho)
    have step := ih (r.invoke op) htl
    simp only [invokeAll, List.foldl_cons] at step ⊢
    rw [step, RegisteredCommands_invoke, if_neg (fun e => hop e.symm)]

theorem RegisteredCommands_of_fresh (r : MockResourceOps) (h : r.commandsPerResource = none)
    (k : ResourceKey) : r.RegisteredCommands k = [] := by
  simp [RegisteredCommands, commandsPerResourceAt, h]

theorem CreateResource_snd (r : MockResourceOps) (ctx : Context) (obj : Unstructured)
    (d : DryRunStrategy) (validate : Bool) :
    (r.CreateResource ctx obj d validate).2 =
      match r.Commands.lookup obj.GetName with
      | none => ("", none)
      | some command => (command.Output, command.Err) := by
  simp only [CreateResource, Commands_registerCommand]
  split <;> rfl

theorem ApplyResource_snd (r : MockResourceOps) (ctx : Context) (obj : Unstructured)
    (d : DryRunStrategy) (force validate serverSideApply : Bool) (manager : String)
    (serverSideDiff : Bool) :
    (r.ApplyResource ctx obj d force validate serverSideApply manager serverSideDiff).2 =
      match r.Commands.lookup obj.GetName with
      | none => ("", none)
      | some command => (command.Output, command.Err) := by
  simp only [ApplyResource, Commands_registerCommand]
  split <;> rfl

theorem ReplaceResource_snd (r : MockResourceOps) (ctx : Context) (obj : Unstructured)
    (d : DryRunStrategy) (force : Bool) :
    (r.ReplaceResource ctx obj d force).2 =
      match r.Commands.lookup obj.GetName with
      | none => ("", none)
      | some command => (command.Output, command.Err) := by
  simp only [ReplaceResource, Commands_registerCommand]
  split <;> rfl

theorem UpdateResource_snd (r : MockResourceOps) (ctx : Context) (obj : Unstructured)
    (d : DryRunStrategy) :
    (r.UpdateResource ctx obj d).2 =
      match r.Commands.lookup obj.GetName with
      | none => (obj, none)
      | some command => (obj, command.Err) := by
  simp only [UpdateResource, Commands_registerCommand]
  split <;> rfl

theorem CreateResource_fst (r : MockResourceOps) (ctx : Context) (obj : Unstructured)
    (d : DryRunStrategy) (validate : Bool) :
    (r.CreateResource ctx obj d validate).1 =
      r.registerCommand (GetResourceKey obj)
        { Command := "create", Validate := validate, DryRunStrategy := d } :=
  invoke_eq_registerCommand r (.Create ctx obj d validate)

theorem ApplyResource_fst (r : MockResourceOps) (ctx : Context) (obj : Unstructured)
    (d : DryRunStrategy) (force validate serverSideApply : Bool) (manager : String)
    (serverSideDiff : Bool) :
    (r.ApplyResource ctx obj d force validate serverSideApply manager serverSideDiff).1 =
      r.registerCommand (GetResourceKey obj)
        { Command := "apply", Validate := validate, ServerSideApply := serverSideApply,
          ServerSideApplyManager := manager, Force := force, DryRunStrategy := d } :=
  invoke_eq_registerCommand r
    (.Apply ctx obj d force validate serverSideApply manager serverSideDiff)

theorem ReplaceResource_fst (r : MockResourceOps) (ctx : Context) (obj : Unstructured)
    (d : DryRunStrategy) (force : Bool) :
    (r.ReplaceResource ctx obj d force).1 =
      r.registerCommand (GetResourceKey obj)
        { Command := "replace", Force := force, DryRunStrategy := d } :=
  invoke_eq_registerCommand r (.Replace ctx obj d force)

theorem UpdateResource_fst (r : MockResourceOps) (ctx : Context) (obj : Unstructured)
    (d : DryRunStrategy) :
    (r.UpdateResource ctx obj d).1 =
      r.registerCommand (GetResourceKey obj) { Command := "update", DryRunStrategy := d } :=
  invoke_eq_registerCommand r (.Update ctx obj d)

theorem errIsCanned_of_eq (r : MockResourceOps) (obj : Unstructured) (err : GoError)
    (h : err = match r.Commands.lookup obj.GetName with
      | none => none
      | some command => command.Err) : ErrIsCanned r obj err := by
  subst h
  cases hl : r.Commands.lookup obj.GetName with
  | none => simp [ErrIsCanned, hl]
  | some out => simp [ErrIsCanned, hl]

theorem RegisteredCommands_registerCommand_self (r : MockResourceOps) (key : ResourceKey)
    (cmd : RegisteredCommand) :
    (r.registerCommand key cmd).RegisteredCommands key = r.RegisteredCommands key ++ [cmd] := by
  unfold RegisteredCommands
  rw [commandsPerResourceAt_registerCommand, if_pos rfl]

theorem RegisteredCommands_registerCommand_other (r : MockResourceOps) (key : ResourceKey)
    (cmd : RegisteredCommand) (k : ResourceKey) (hk : k ≠ key) :
    (r.registerCommand key cmd).RegisteredCommands k = r.RegisteredCommands k := by
  unfold RegisteredCommands
  rw [commandsPerResourceAt_registerCommand, if_neg hk]

theorem RegisteredCommands_call (r : MockResourceOps) (c : Call) (k : ResourceKey) :
    ∃ added, (r.call c).RegisteredCommands k = r.RegisteredCommands k ++ added := by
  cases c with
  | Op op =>
    simp only [call]
    rw [RegisteredCommands_invoke]
    by_cases hk : k = GetResourceKey op.obj
    · exact ⟨[op.registered], by rw [if_pos hk]⟩
    · exact ⟨[], by rw [if_neg hk, List.append_nil]⟩
  | WithGetResourceFunc f => exact ⟨[], by simp [call, WithGetResourceFunc, RegisteredCommands,
      commandsPerResourceAt]⟩
  | GetLastValidate key => exact ⟨[], by simp [call]⟩
  | GetLastServerSideApplyManager key => exact ⟨[], by simp [call]⟩
  | GetLastServerSideApply key => exact ⟨[], by simp [call]⟩
  | GetLastForce key => exact ⟨[], by simp [call]⟩
  | GetLastResourceCommand key => exact ⟨[], by simp [call]⟩
  | RegisteredCommands key => exact ⟨[], by simp [call]⟩

/-- In a reachable state the history map is `nil` exactly when every history is
empty. -/
theorem reachable_nil_iff (r : MockResourceOps) (hr : Reachable r) :
    r.commandsPerResource = none ↔ ∀ k, r.RegisteredCommands k = [] := by
  constructor
  · exact fun h k => RegisteredCommands_of_fresh r h k
  · induction hr with
    | fresh commands => intro _; rfl
    | @step s c _ ih =>
      intro h
      cases c with
      | Op op =>
        have h1 := h (GetResourceKey op.obj)
        simp only [call] at h1
        rw [RegisteredCommands_invoke, if_pos rfl] at h1
        exact absurd h1 (by simp)
      | WithGetResourceFunc f => exact ih h
      | GetLastValidate key => exact ih h
      | GetLastServerSideApplyManager key => exact ih h
      | GetLastServerSideApply key => exact ih h
      | GetLastForce key => exact ih h
      | GetLastResourceCommand key => exact ih h
      | RegisteredCommands key => exact ih h

theorem GetResourceKey_ne (a b : Unstructured)
    (hdiff : a.Group ≠ b.Group ∨ a.Kind ≠ b.Kind ∨ a.Namespace ≠ b.Namespace) :
    GetResourceKey a ≠ GetResourceKey b := by
  intro h
  simp only [GetResourceKey, Unstructured.GroupVersionKind, Unstructured.GetNamespace,
    Unstructured.GetName, ResourceKey.mk.injEq] at h
  rcases hdiff with hd | hd | hd
  · exact hd h.1
  · exact hd h.2.1
  · exact hd h.2.2.1

theorem commandsPerResource_call_eq_none_iff (r : MockResourceOps) (c : Call) :
    (r.call c).commandsPerResource = none ↔
      r.commandsPerResource = none ∧ c.recordedKey = none := by
  cases c with
  | Op op =>
    simp only [call, Call.recordedKey]
    rw [invoke_eq_registerCommand]
    constructor
    · intro h
      exact absurd h (commandsPerResource_registerCommand_ne_none _ _ _)
    · rintro ⟨_, h⟩
      exact absurd h (by simp)
  | WithGetResourceFunc f => simp [call, WithGetResourceFunc, Call.recordedKey]
  | GetLastValidate key => simp [call, Call.recordedKey]
  | GetLastServerSideApplyManager key => simp [call, Call.recordedKey]
  | GetLastServerSideApply key => simp [call, Call.recordedKey]
  | GetLastForce key => simp [call, Call.recordedKey]
  | GetLastResourceCommand key => simp [call, Call.recordedKey]
  | RegisteredCommands key => simp [call, Call.recordedKey]

theorem RegisteredCommands_call_eq_nil_iff (r : MockResourceOps) (c : Call) (k : ResourceKey) :
    (r.call c).RegisteredCommands k = [] ↔
      r.RegisteredCommands k = [] ∧ c.recordedKey ≠ some k := by
  cases c with
  | Op op =>
    simp only [call, Call.recordedKey]
    rw [RegisteredCommands_invoke]
    by_cases hk : k = GetResourceKey op.obj
    · rw [if_pos hk]
      constructor
      · intro h
        exact absurd h (by simp)
      · rintro ⟨_, h⟩
        exact absurd (congrArg some hk.symm) h
    · rw [if_neg hk]
      constructor
      · intro h
        exact ⟨h, fun e => hk (Option.some.inj e).symm⟩
      · exact fun h => h.1
  | WithGetResourceFunc f =>
    simp [call, WithGetResourceFunc, Call.recordedKey, RegisteredCommands,
      commandsPerResourceAt]
  | GetLastValidate key => simp [call, Call.recordedKey]
  | GetLastServerSideApplyManager key => simp [call, Call.recordedKey]
  | GetLastServerSideApply key => simp [call, Call.recordedKey]
  | GetLastForce key => simp [call, Call.recordedKey]
  | GetLastResourceCommand key => simp [call, Call.recordedKey]
  | RegisteredCommands key => simp [call, Call.recordedKey]

theorem entriesNonEmpty_registerCommand (r : MockResourceOps) (key : ResourceKey)
    (cmd : RegisteredCommand) (h : r.EntriesNonEmpty) :
    (r.registerCommand key cmd).EntriesNonEmpty := by
  intro m hm k v hv
  simp only [registerCommand, Option.some.injEq] at hm
  subst hm
  by_cases hk : k = key
  · subst hk
    rw [AList.lookup_insert] at hv
    have hv2 := Option.some.inj hv
    rw [← hv2]
    simp
  · rw [AList.lookup_insert_ne hk] at hv
    cases hc : r.commandsPerResource with
    | none =>
      rw [hc] at hv
      simp only [AList.lookup_empty] at hv
      exact absurd hv (by simp)
    | some m0 =>
      rw [hc] at hv
      exact h m0 hc k v hv

theorem entriesNonEmpty_call (r : MockResourceOps) (c : Call) (h : r.EntriesNonEmpty) :
    (r.call c).EntriesNonEmpty := by
  cases c with
  | Op op =>
    simp only [call]
    rw [invoke_eq_registerCommand]
    exact entriesNonEmpty_registerCommand r _ _ h
  | WithGetResourceFunc f => exact h
  | GetLastValidate key => exact h
  | GetLastServerSideApplyManager key => exact h
  | GetLastServerSideApply key => exact h
  | GetLastForce key => exact h
  | GetLastResourceCommand key => exact h
  | RegisteredCommands key => exact h

/-- The history of a key after any sequence of operations is its old history
followed by the records of the operations on that key, in the order of the
sequence; operations on other keys leave no trace in it. -/
theorem RegisteredCommands_invokeAll (k : ResourceKey) (ops : List Operation) :
    ∀ r : MockResourceOps,
      (r.invokeAll ops).RegisteredCommands k =
        r.RegisteredCommands k ++
          (ops.filter (fun op => decide (GetResourceKey op.obj = k))).map
            Operation.registered := by
  induction ops with
  | nil => intro r; simp [invokeAll]
  | cons op ops ih =>
    intro r
    have step := ih (r.invoke op)
    simp only [invokeAll, List.foldl_cons] at step ⊢
    rw [step, RegisteredCommands_invoke]
    by_cases hk : k = GetResourceKey op.obj
    · subst hk
      simp
    · have hk2 : ¬ GetResourceKey op.obj = k := fun e => hk e.symm
      simp [hk, hk2]

end MockResourceOps

/-! ### Calls with the lock -/

namespace RWMutex

theorem RUnlock_of_RLock (m held : RWMutex) (h : m.RLock = some held) : held.RUnlock = m := by
  unfold RLock at h
  split at h
  · exact absurd h (by simp)
  · have h2 := Option.some.inj h
    subst h2
    simp [RUnlock]

theorem Unlock_of_Lock (m held : RWMutex) (h : m.Lock = some held) : held.Unlock = m := by
  unfold Lock at h
  split at h
  · exact absurd h (by simp)
  · rename_i hfree
    have h2 := Option.some.inj h
    subst h2
    have hw : m.writer = false := by
      cases hm : m.writer with
      | false => rfl
      | true => exact absurd (Or.inl hm) hfree
    cases m with
    | mk readers writer =>
      simp only at hw
      subst hw
      rfl

theorem RLock_isSome_of_writer_false (m : RWMutex) (h : m.writer = false) :
    m.RLock = some { m with readers := m.readers + 1 } := by
  simp [RLock, h]

end RWMutex

namespace LockedMock

open MockResourceOps in
theorem invoke_eq (s : LockedMock) (op : Operation) :
    s.invoke op =
      match s.recordLock.Lock with
      | none => Outcome.blocked
      | some held =>
        Outcome.returned () { mock := s.mock.invoke op, recordLock := held.Unlock } := by
  rw [MockResourceOps.invoke_eq_registerCommand]
  cases op <;>
    simp only [invoke, CreateResource, ApplyResource, ReplaceResource, UpdateResource,
      registerCommand, MockResourceOps.Operation.obj, MockResourceOps.Operation.registered] <;>
    cases s.recordLock.Lock <;>
    simp only [] <;>
    first
      | rfl
      | (split <;> rfl)

/-- After a return or a panic the data of the mock is what the call makes of
it; the lock does not enter into it. -/
theorem mock_of_next_call (s : LockedMock) (c : MockResourceOps.Call) (s1 : LockedMock)
    (h : (s.call c).next = some s1) : s1.mock = s.mock.call c := by
  cases c with
  | Op op =>
    simp only [call, invoke_eq] at h
    cases hl : s.recordLock.Lock with
    | none => simp [hl, Outcome.next] at h
    | some held =>
      simp only [hl, Outcome.next, Option.some.injEq] at h
      subst h
      rfl
  | WithGetResourceFunc f =>
    simp only [call, WithGetResourceFunc, Outcome.next, Option.some.injEq] at h
    subst h
    rfl
  | GetLastValidate key =>
    simp only [call, GetLastValidate] at h
    cases hl : s.recordLock.RLock <;> cases hc : s.mock.lastCommand key <;>
      simp only [hl, hc, Outcome.discard, Outcome.next, Option.some.injEq] at h <;>
      first
        | exact absurd h (by simp)
        | (subst h; rfl)
  | GetLastServerSideApplyManager key =>
    simp only [call, GetLastServerSideApplyManager] at h
    cases hl : s.recordLock.Lock <;> cases hc : s.mock.lastCommand key <;>
      simp only [hl, hc, Outcome.discard, Outcome.next, Option.some.injEq] at h <;>
      first
        | exact absurd h (by simp)
        | (subst h; rfl)
  | GetLastServerSideApply key =>
    simp only [call, GetLastServerSideApply] at h
    cases hl : s.recordLock.RLock <;> cases hc : s.mock.lastCommand key <;>
      simp only [hl, hc, Outcome.discard, Outcome.next, Option.some.injEq] at h <;>
      first
        | exact absurd h (by simp)
        | (subst h; rfl)
  | GetLastForce key =>
    simp only [call, GetLastForce] at h
    cases hl : s.recordLock.RLock <;> cases hc : s.mock.lastCommand key <;>
      simp only [hl, hc, Outcome.discard, Outcome.next, Option.some.injEq] at h <;>
      first
        | exact absurd h (by simp)
        | (subst h; rfl)
  | GetLastResourceCommand key =>
    simp only [call, GetLastResourceCommand] at h
    cases hl : s.recordLock.Lock <;> cases hm : s.mock.commandsPerResource <;>
      cases hc : s.mock.lastCommand key <;>
      simp only [hl, hm, hc, Outcome.discard, Outcome.next, Option.some.injEq] at h <;>
      first
        | exact absurd h (by simp)
        | (subst h; rfl)
  | RegisteredCommands key =>
    simp only [call, RegisteredCommands] at h
    cases hl : s.recordLock.RLock <;>
      simp only [hl, Outcome.discard, Outcome.next, Option.some.injEq] at h <;>
      first
        | exact absurd h (by simp)
        | (subst h; rfl)

/-- A call that returns leaves the lock as it found it. -/
theorem recordLock_of_returned (s : LockedMock) (c : MockResourceOps.Call) (s1 : LockedMock)
    (h : s.call c = Outcome.returned () s1) : s1.recordLock = s.recordLock := by
  cases c with
  | Op op =>
    simp only [call, invoke_eq] at h
    cases hl : s.recordLock.Lock with
    | none => simp [hl] at h
    | some held =>
      simp only [hl, Outcome.returned.injEq, true_and] at h
      subst h
      exact RWMutex.Unlock_of_Lock _ _ hl
  | WithGetResourceFunc f =>
    simp only [call, WithGetResourceFunc, Outcome.returned.injEq, true_and] at h
    subst h
    rfl
  | GetLastValidate key =>
    simp only [call, GetLastValidate] at h
    cases hl : s.recordLock.RLock <;> cases hc : s.mock.lastCommand key <;>
      simp only [hl, hc, Outcome.discard, Outcome.returned.injEq, true_and] at h <;>
      first
        | exact absurd h (by simp)
        | (subst h; exact RWMutex.RUnlock_of_RLock _ _ hl)
  | GetLastServerSideApplyManager key =>
    simp only [call, GetLastServerSideApplyManager] at h
    cases hl : s.recordLock.Lock <;> cases hc : s.mock.lastCommand key <;>
      simp only [hl, hc, Outcome.discard, Outcome.returned.injEq, true_and] at h <;>
      first
        | exact absurd h (by simp)
        | (subst h; exact RWMutex.Unlock_of_Lock _ _ hl)
  | GetLastServerSideApply key =>
    simp only [call, GetLastServerSideApply] at h
    cases hl : s.recordLock.RLock <;> cases hc : s.mock.lastCommand key <;>
      simp only [hl, hc, Outcome.discard, Outcome.returned.injEq, true_and] at h <;>
      first
        | exact absurd h (by simp)
        | (subst h; exact RWMutex.RUnlock_of_RLock _ _ hl)
  | GetLastForce key =>
    simp only [call, GetLastForce] at h
    cases hl : s.recordLock.RLock <;> cases hc : s.mock.lastCommand key <;>
      simp only [hl, hc, Outcome.discard, Outcome.returned.injEq, true_and] at h <;>
      first
        | exact absurd h (by simp)
        | (subst h; exact RWMutex.RUnlock_of_RLock _ _ hl)
  | GetLastResourceCommand key =>
    simp only [call, GetLastResourceCommand] at h
    cases hl : s.recordLock.Lock <;> cases hm : s.mock.commandsPerResource <;>
      cases hc : s.mock.lastCommand key <;>
      simp only [hl, hm, hc, Outcome.discard, Outcome.returned.injEq, true_and] at h <;>
      first
        | exact absurd h (by simp)
        | (subst h; exact RWMutex.Unlock_of_Lock _ _ hl)
  | RegisteredCommands key =>
    simp only [call, RegisteredCommands] at h
    cases hl : s.recordLock.RLock <;>
      simp only [hl, Outcome.discard, Outcome.returned.injEq, true_and] at h <;>
      first
        | exact absurd h (by simp)
        | (subst h; exact RWMutex.RUnlock_of_RLock _ _ hl)

theorem callAll_cons_eq_some (s0 s : LockedMock) (c : MockResourceOps.Call)
    (calls : List MockResourceOps.Call) (h : s0.callAll (c :: calls) = some s) :
    ∃ s1, (s0.call c).next = some s1 ∧ s1.callAll calls = some s := by
  simp only [callAll] at h
  cases hn : (s0.call c).next with
  | none => simp [hn] at h
  | some s1 => exact ⟨s1, rfl, by simpa [hn] using h⟩

/-- What a completed sequence of calls does to the data, relative to the state
it started in. -/
theorem callAll_data (calls : List MockResourceOps.Call) :
    ∀ s0 s : LockedMock, s0.callAll calls = some s →
      (s.mock.commandsPerResource = none ↔
        s0.mock.commandsPerResource = none ∧ ∀ c ∈ calls, c.recordedKey = none) ∧
      (s0.mock.EntriesNonEmpty → s.mock.EntriesNonEmpty) ∧
      (∀ k, s.mock.RegisteredCommands k = [] ↔
        s0.mock.RegisteredCommands k = [] ∧ ∀ c ∈ calls, c.recordedKey ≠ some k) := by
  induction calls with
  | nil =>
    intro s0 s h
    simp only [callAll, Option.some.injEq] at h
    subst h
    simp
  | cons c calls ih =>
    intro s0 s h
    obtain ⟨s1, hn, hrest⟩ := callAll_cons_eq_some s0 s c calls h
    have hm := mock_of_next_call s0 c s1 hn
    obtain ⟨ih1, ih2, ih3⟩ := ih s1 s hrest
    refine ⟨?_, ?_, ?_⟩
    · rw [ih1, hm, MockResourceOps.commandsPerResource_call_eq_none_iff]
      simp only [List.mem_cons, forall_eq_or_imp]
      exact and_assoc
    · intro h0
      apply ih2
      rw [hm]
      exact MockResourceOps.entriesNonEmpty_call _ c h0
    · intro k
      rw [ih3 k, hm, MockResourceOps.RegisteredCommands_call_eq_nil_iff]
      simp only [List.mem_cons, forall_eq_or_imp]
      exact and_assoc

/-- A sequence of calls that all return is completed, and leaves the lock as it
found it. -/
theorem callAll_of_allReturn (calls : List MockResourceOps.Call) :
    ∀ s0 : LockedMock, s0.allReturn calls = true →
      ∃ s, s0.callAll calls = some s ∧ s.recordLock = s0.recordLock := by
  induction calls with
  | nil => intro s0 _; exact ⟨s0, rfl, rfl⟩
  | cons c calls ih =>
    intro s0 h
    simp only [allReturn] at h
    cases hc : s0.call c with
    | returned u s1 =>
      simp only [hc] at h
      obtain ⟨s, hs, hl⟩ := ih s1 h
      refine ⟨s, ?_, ?_⟩
      · simp only [callAll, hc, Outcome.next]
        exact hs
      · rw [hl]
        exact recordLock_of_returned s0 c s1 hc
    | panicked s1 => simp [hc] at h
    | blocked => simp [hc] at h

/-- Recording operations on a mock whose lock is free all return. -/
theorem allReturn_ops (ops : List MockResourceOps.Operation) :
    ∀ s0 : LockedMock, s0.recordLock = {} →
      s0.allReturn (ops.map MockResourceOps.Call.Op) = true := by
  induction ops with
  | nil => intro s0 _; rfl
  | cons op ops ih =>
    intro s0 h0
    have hl : s0.recordLock.Lock = some { writer := true } := by
      rw [h0]; rfl
    simp only [List.map_cons, allReturn, call, invoke_eq, hl]
    apply ih
    simp only [RWMutex.Unlock]

/-- The accessor `RegisteredCommands` never panics. -/
theorem RegisteredCommands_ne_panicked (s : LockedMock) (k : ResourceKey) (s1 : LockedMock) :
    s.RegisteredCommands k ≠ Outcome.panicked s1 := by
  unfold RegisteredCommands
  cases s.recordLock.RLock <;> simp

/-- The accessor `RegisteredCommands` returns the history of the key, and
leaves the state as it was, whenever the write lock is not held. -/
theorem RegisteredCommands_returned (s : LockedMock) (k : ResourceKey)
    (h : s.recordLock.writer = false) :
    s.RegisteredCommands k = Outcome.returned (s.mock.RegisteredCommands k) s := by
  have hl := RWMutex.RLock_isSome_of_writer_false s.recordLock h
  have hu := RWMutex.RUnlock_of_RLock _ _ hl
  unfold RegisteredCommands
  rw [hl]
  simp only []
  rw [hu]
  rfl

theorem callAll_concat_returned (calls : List MockResourceOps.Call) :
    ∀ (s0 s s1 : LockedMock) (c : MockResourceOps.Call),
      s0.allReturn calls = true → s0.callAll calls = some s →
      s.call c = Outcome.returned () s1 →
      s0.allReturn (calls ++ [c]) = true ∧ s0.callAll (calls ++ [c]) = some s1 := by
  induction calls with
  | nil =>
    intro s0 s s1 c _ hrun hc
    simp only [callAll, Option.some.injEq] at hrun
    subst hrun
    simp [allReturn, callAll, hc, Outcome.next]
  | cons d calls ih =>
    intro s0 s s1 c hall hrun hc
    simp only [allReturn] at hall
    cases hd : s0.call d with
    | returned u s2 =>
      simp only [hd] at hall
      simp only [callAll, hd, Outcome.next] at hrun
      obtain ⟨h1, h2⟩ := ih s2 s s1 c hall hrun hc
      simp only [List.cons_append, allReturn, callAll, hd, Outcome.next]
      exact ⟨h1, h2⟩
    | panicked s2 => simp [hd] at hall
    | blocked => simp [hd] at hall

/-- The data of a state that a sequence of calls on a fresh mock arrives at is
reachable. -/
theorem reachable_of_callAll (calls : List MockResourceOps.Call) :
    ∀ s0 s : LockedMock, MockResourceOps.Reachable s0.mock → s0.callAll calls = some s →
      MockResourceOps.Reachable s.mock := by
  induction calls with
  | nil =>
    intro s0 s h0 hrun
    simp only [callAll, Option.some.injEq] at hrun
    subst hrun
    exact h0
  | cons c calls ih =>
    intro s0 s h0 hrun
    obtain ⟨s1, hn, hrest⟩ := callAll_cons_eq_some s0 s c calls hrun
    apply ih s1 s _ hrest
    rw [mock_of_next_call s0 c s1 hn]
    exact MockResourceOps.Reachable.step c h0

/-- Every reachable data state is arrived at by a sequence of calls on a fresh
mock that all return. -/
theorem callAll_of_reachable (r : MockResourceOps) (h : MockResourceOps.Reachable r) :
    ∃ commands calls s, (fresh commands).allReturn calls = true ∧
      (fresh commands).callAll calls = some s ∧ s.mock = r := by
  induction h with
  | fresh commands => exact ⟨commands, [], fresh commands, rfl, rfl, rfl⟩
  | @step r0 c _ ih =>
    obtain ⟨commands, calls, s, hall, hrun, hm⟩ := ih
    have hfree : s.recordLock = {} := by
      obtain ⟨s2, hs2, hl⟩ := callAll_of_allReturn calls (fresh commands) hall
      rw [hrun] at hs2
      have hs : s = s2 := Option.some.inj hs2
      subst hs
      rw [hl]
      rfl
    cases c with
    | Op op =>
      have hl : s.recordLock.Lock = some { writer := true } := by
        rw [hfree]; rfl
      have hc : s.call (.Op op) =
          Outcome.returned ()
            { mock := s.mock.invoke op,
              recordLock := RWMutex.Unlock { writer := true } } := by
        simp only [call, invoke_eq, hl]
      obtain ⟨h1, h2⟩ := callAll_concat_returned calls _ s _ _ hall hrun hc
      exact ⟨commands, calls ++ [.Op op], _, h1, h2, by rw [← hm]; rfl⟩
    | WithGetResourceFunc f =>
      have hc : s.call (.WithGetResourceFunc f) =
          Outcome.returned () { s with mock := s.mock.WithGetResourceFunc f } := rfl
      obtain ⟨h1, h2⟩ := callAll_concat_returned calls _ s _ _ hall hrun hc
      exact ⟨commands, calls ++ [.WithGetResourceFunc f], _, h1, h2, by rw [← hm]; rfl⟩
    | GetLastValidate key => exact ⟨commands, calls, s, hall, hrun, hm⟩
    | GetLastServerSideApplyManager key => exact ⟨commands, calls, s, hall, hrun, hm⟩
    | GetLastServerSideApply key => exact ⟨commands, calls, s, hall, hrun, hm⟩
    | GetLastForce key => exact ⟨commands, calls, s, hall, hrun, hm⟩
    | GetLastResourceCommand key => exact ⟨commands, calls, s, hall, hrun, hm⟩
    | RegisteredCommands key => exact ⟨commands, calls, s, hall, hrun, hm⟩

/-- A last-command accessor that panics keeps its read lock, and the recording
operation that follows blocks: the sequence is not completed. -/
theorem callAll_blocked_after_panic :
    (fresh fooCreated).call (.GetLastValidate (GetResourceKey fooPod)) =
        Outcome.panicked
          { mock := { Commands := fooCreated }, recordLock := { readers := 1 } } ∧
    (fresh fooCreated).callAll
        [.GetLastValidate (GetResourceKey fooPod),
         .Op (.Create () fooPod .DryRunNone true)] = none :=
  ⟨rfl, rfl⟩

end LockedMock

namespace MockResourceOps

/-! ## The claims -/

/-- C1: on a mock without recorded history, after any sequence of `N` recording
operations whose objects all have key `k`, `RegisteredCommands k` has length
`N`, its `i`-th element is the record of the `i`-th operation, and that record
is the one the `i`-th invocation appended. -/
theorem history_of_sequence (r : MockResourceOps) (hfresh : r.commandsPerResource = none)
    (k : ResourceKey) (ops : List Operation)
    (hk : ∀ op ∈ ops, GetResourceKey op.obj = k) :
    ((r.invokeAll ops).RegisteredCommands k).length = ops.length ∧
    ∀ (i : Nat) (hi : i < ops.length),
      ((r.invokeAll ops).RegisteredCommands k)[i]? = some (ops[i]).registered ∧
      (r.invokeAll (ops.take (i + 1))).RegisteredCommands k =
        (r.invokeAll (ops.take i)).RegisteredCommands k ++ [(ops[i]).registered] := by
  have h0 := RegisteredCommands_of_fresh r hfresh k
  have hall := RegisteredCommands_invokeAll_same k ops r hk
  rw [h0, List.nil_append] at hall
  refine ⟨by rw [hall, List.length_map], fun i hi => ⟨?_, ?_⟩⟩
  · rw [hall, List.getElem?_map, List.getElem?_eq_getElem hi]
    rfl
  · have h1 := RegisteredCommands_invokeAll_same k (ops.take (i + 1)) r
      (fun op hop => hk op (List.mem_of_mem_take hop))
    have h2 := RegisteredCommands_invokeAll_same k (ops.take i) r
      (fun op hop => hk op (List.mem_of_mem_take hop))
    rw [h1, h2, h0, List.nil_append, List.nil_append, List.take_succ,
      List.getElem?_eq_getElem hi]
    simp only [Option.toList_some, List.map_append, List.map_cons, List.map_nil]

/-- Witness of C1: create, apply, replace and update of `fooPod` on a fresh mock. -/
theorem history_of_sequence_witness :
    (({ Commands := fooCreated } : MockResourceOps).invokeAll
        [.Create () fooPod .DryRunNone true,
         .Apply () fooPod .DryRunServer false true true "argocd" false,
         .Replace () fooPod .DryRunClient true,
         .Update () fooPod .DryRunNone]).RegisteredCommands (GetResourceKey fooPod) =
      [{ Command := "create", Validate := true },
       { Command := "apply", Validate := true, ServerSideApply := true,
         ServerSideApplyManager := "argocd", DryRunStrategy := .DryRunServer },
       { Command := "replace", Force := true, DryRunStrategy := .DryRunClient },
       { Command := "update" }] ∧
    ((({ Commands := fooCreated } : MockResourceOps).invokeAll
        [.Create () fooPod .DryRunNone true,
         .Apply () fooPod .DryRunServer false true true "argocd" false,
         .Replace () fooPod .DryRunClient true,
         .Update () fooPod .DryRunNone]).RegisteredCommands (GetResourceKey fooPod)).length
      = 4 :=
  ⟨by decide,
   (history_of_sequence { Commands := fooCreated } rfl (GetResourceKey fooPod)
      [.Create () fooPod .DryRunNone true,
       .Apply () fooPod .DryRunServer false true true "argocd" false,
       .Replace () fooPod .DryRunClient true,
       .Update () fooPod .DryRunNone] (by decide)).1⟩

/-- C2: when key `k` has a recorded command, the five last-command accessors
return the `Validate`, `Force`, `ServerSideApply`, `ServerSideApplyManager` and
`Command` field of the last element of `RegisteredCommands k`, and they still
return these values after any sequence of operations on other keys. -/
theorem last_accessors (r : MockResourceOps) (k : ResourceKey)
    (h : r.RegisteredCommands k ≠ []) (ops : List Operation)
    (hops : ∀ op ∈ ops, GetResourceKey op.obj ≠ k) :
    (r.GetLastValidate k = some ((r.RegisteredCommands k).getLast h).Validate ∧
     r.GetLastForce k = some ((r.RegisteredCommands k).getLast h).Force ∧
     r.GetLastServerSideApply k = some ((r.RegisteredCommands k).getLast h).ServerSideApply ∧
     r.GetLastServerSideApplyManager k =
       some ((r.RegisteredCommands k).getLast h).ServerSideApplyManager ∧
     r.GetLastResourceCommand k = some ((r.RegisteredCommands k).getLast h).Command) ∧
    ((r.invokeAll ops).GetLastValidate k = r.GetLastValidate k ∧
     (r.invokeAll ops).GetLastForce k = r.GetLastForce k ∧
     (r.invokeAll ops).GetLastServerSideApply k = r.GetLastServerSideApply k ∧
     (r.invokeAll ops).GetLastServerSideApplyManager k = r.GetLastServerSideApplyManager k ∧
     (r.invokeAll ops).GetLastResourceCommand k = r.GetLastResourceCommand k) := by
  have hlast : r.lastCommand k = some ((r.RegisteredCommands k).getLast h) :=
    lastCommand_of_ne_nil r k h
  have hsame : (r.invokeAll ops).RegisteredCommands k = r.RegisteredCommands k :=
    RegisteredCommands_invokeAll_other k ops r hops
  have hlast2 : (r.invokeAll ops).lastCommand k = r.lastCommand k := by
    rw [lastCommand_eq_getLast?, lastCommand_eq_getLast?]
    exact congrArg List.getLast? hsame
  have hmap : ∀ s : MockResourceOps, s.RegisteredCommands k ≠ [] →
      s.GetLastResourceCommand k = (s.lastCommand k).map (fun c => c.Command) := by
    intro s hs
    unfold GetLastResourceCommand
    cases hc : s.commandsPerResource with
    | none => exact absurd (RegisteredCommands_of_fresh s hc k) hs
    | some m => rfl
  have h2 : (r.invokeAll ops).RegisteredCommands k ≠ [] := by rw [hsame]; exact h
  refine ⟨⟨?_, ?_, ?_, ?_, ?_⟩, ?_, ?_, ?_, ?_, ?_⟩
  · simp [GetLastValidate, hlast]
  · simp [GetLastForce, hlast]
  · simp [GetLastServerSideApply, hlast]
  · simp [GetLastServerSideApplyManager, hlast]
  · rw [hmap r h, hlast]; rfl
  · simp [GetLastValidate, hlast2]
  · simp [GetLastForce, hlast2]
  · simp [GetLastServerSideApply, hlast2]
  · simp [GetLastServerSideApplyManager, hlast2]
  · rw [hmap r h, hmap _ h2, hlast2]

/-- Witness of C2: after an apply on `fooPod`, operations on `barPod` and
`fooService` leave the last-command accessors of `fooPod` unchanged. -/
theorem last_accessors_witness :
    ((({ Commands := fooCreated } : MockResourceOps).invoke
        (.Apply () fooPod .DryRunNone true true true "argocd" false)).invokeAll
        [.Create () barPod .DryRunNone false,
         .Update () fooService .DryRunNone]).GetLastServerSideApplyManager
      (GetResourceKey fooPod) =
    (({ Commands := fooCreated } : MockResourceOps).invoke
        (.Apply () fooPod .DryRunNone true true true "argocd" false)).GetLastServerSideApplyManager
      (GetResourceKey fooPod) :=
  (last_accessors
    (({ Commands := fooCreated } : MockResourceOps).invoke
      (.Apply () fooPod .DryRunNone true true true "argocd" false))
    (GetResourceKey fooPod) (by decide)
    [.Create () barPod .DryRunNone false, .Update () fooService .DryRunNone]
    (by decide)).2.2.2.2.1

/-- C3: when the table has an entry for the object's name, `CreateResource`,
`ApplyResource` and `ReplaceResource` all return that entry's `Output` and `Err`,
whatever the flags and the recorded history. -/
theorem canned_response_returned (r : MockResourceOps) (obj : Unstructured)
    (out : KubectlOutput) (h : r.Commands.lookup obj.GetName = some out)
    (ctx1 ctx2 ctx3 : Context) (d1 d2 d3 : DryRunStrategy)
    (validate1 validate2 force2 force3 serverSideApply serverSideDiff : Bool)
    (manager : String) :
    (r.CreateResource ctx1 obj d1 validate1).2 = (out.Output, out.Err) ∧
    (r.ApplyResource ctx2 obj d2 force2 validate2 serverSideApply manager serverSideDiff).2 =
      (out.Output, out.Err) ∧
    (r.ReplaceResource ctx3 obj d3 force3).2 = (out.Output, out.Err) := by
  refine ⟨?_, ?_, ?_⟩
  · rw [CreateResource_snd, h]
  · rw [ApplyResource_snd, h]
  · rw [ReplaceResource_snd, h]

/-- Witness of C3: the example of the specification, the table maps `foo` to the
output `created` without error. -/
theorem canned_response_returned_witness :
    (({ Commands := fooCreated } : MockResourceOps).CreateResource () fooPod
        .DryRunNone true).2 = ("created", none) ∧
    (({ Commands := fooCreated } : MockResourceOps).ApplyResource () fooPod
        .DryRunServer true false true "argocd" true).2 = ("created", none) ∧
    (({ Commands := fooCreated } : MockResourceOps).ReplaceResource () fooPod
        .DryRunClient true).2 = ("created", none) :=
  canned_response_returned { Commands := fooCreated } fooPod
    { Output := "created", Err := none } (by decide) () () ()
    .DryRunNone .DryRunServer .DryRunClient true false true true true true "argocd"

/-- C4: when the table has no entry for the object's name, `CreateResource`,
`ApplyResource` and `ReplaceResource` return the empty string and no error, and
`UpdateResource` returns the object it was given and no error. -/
theorem default_response_returned (r : MockResourceOps) (obj : Unstructured)
    (h : r.Commands.lookup obj.GetName = none)
    (ctx1 ctx2 ctx3 ctx4 : Context) (d1 d2 d3 d4 : DryRunStrategy)
    (validate1 validate2 force2 force3 serverSideApply serverSideDiff : Bool)
    (manager : String) :
    (r.CreateResource ctx1 obj d1 validate1).2 = ("", none) ∧
    (r.ApplyResource ctx2 obj d2 force2 validate2 serverSideApply manager serverSideDiff).2 =
      ("", none) ∧
    (r.ReplaceResource ctx3 obj d3 force3).2 = ("", none) ∧
    (r.UpdateResource ctx4 obj d4).2 = (obj, none) := by
  refine ⟨?_, ?_, ?_, ?_⟩
  · rw [CreateResource_snd, h]
  · rw [ApplyResource_snd, h]
  · rw [ReplaceResource_snd, h]
  · rw [UpdateResource_snd, h]

/-- Witness of C4: `barPod` has no entry in a table that only knows `foo`. -/
theorem default_response_returned_witness :
    fooCreated.lookup barPod.GetName = none ∧
    (({ Commands := fooCreated } : MockResourceOps).UpdateResource () barPod
        .DryRunNone).2 = (barPod, none) :=
  ⟨by decide,
   (default_response_returned { Commands := fooCreated } barPod (by decide) () () () ()
      .DryRunNone .DryRunNone .DryRunNone .DryRunNone
      false false false false false false "").2.2.2⟩

/-- C5: for each of the four operations the returned error is the `Err` of the
table's entry for the object's name when there is one and `nil` otherwise, so
an operation returns a non-`nil` error exactly when an entry with a non-`nil`
`Err` exists for the object's name. -/
theorem errors_are_canned (r : MockResourceOps) (obj : Unstructured)
    (ctx1 ctx2 ctx3 ctx4 : Context) (d1 d2 d3 d4 : DryRunStrategy)
    (validate1 validate2 force2 force3 serverSideApply serverSideDiff : Bool)
    (manager : String) :
    ErrIsCanned r obj (r.CreateResource ctx1 obj d1 validate1).2.2 ∧
    ErrIsCanned r obj
      (r.ApplyResource ctx2 obj d2 force2 validate2 serverSideApply manager
        serverSideDiff).2.2 ∧
    ErrIsCanned r obj (r.ReplaceResource ctx3 obj d3 force3).2.2 ∧
    ErrIsCanned r obj (r.UpdateResource ctx4 obj d4).2.2 := by
  refine ⟨?_, ?_, ?_, ?_⟩ <;> apply errIsCanned_of_eq
  · rw [CreateResource_snd]; split <;> rfl
  · rw [ApplyResource_snd]; split <;> rfl
  · rw [ReplaceResource_snd]; split <;> rfl
  · rw [UpdateResource_snd]; split <;> rfl

/-- C6: each operation appends exactly one record to the history of the object's
key; the record carries the operation's name and the supplied flags, and every
field the operation is not given holds its zero value.  Nothing is assumed
about the table of canned responses. -/
theorem operation_appends_record (r : MockResourceOps) (obj : Unstructured)
    (ctx : Context) (d : DryRunStrategy) (force validate serverSideApply : Bool)
    (manager : String) (serverSideDiff : Bool) :
    (r.CreateResource ctx obj d validate).1.RegisteredCommands (GetResourceKey obj) =
      r.RegisteredCommands (GetResourceKey obj) ++
        [{ Command := "create", Validate := validate, ServerSideApply := false,
           ServerSideApplyManager := "", Force := false, DryRunStrategy := d }] ∧
    (r.ApplyResource ctx obj d force validate serverSideApply manager
        serverSideDiff).1.RegisteredCommands (GetResourceKey obj) =
      r.RegisteredCommands (GetResourceKey obj) ++
        [{ Command := "apply", Validate := validate, ServerSideApply := serverSideApply,
           ServerSideApplyManager := manager, Force := force, DryRunStrategy := d }] ∧
    (r.ReplaceResource ctx obj d force).1.RegisteredCommands (GetResourceKey obj) =
      r.RegisteredCommands (GetResourceKey obj) ++
        [{ Command := "replace", Validate := false, ServerSideApply := false,
           ServerSideApplyManager := "", Force := force, DryRunStrategy := d }] ∧
    (r.UpdateResource ctx obj d).1.RegisteredCommands (GetResourceKey obj) =
      r.RegisteredCommands (GetResourceKey obj) ++
        [{ Command := "update", Validate := false, ServerSideApply := false,
           ServerSideApplyManager := "", Force := false, DryRunStrategy := d }] := by
  refine ⟨?_, ?_, ?_, ?_⟩
  · rw [CreateResource_fst, RegisteredCommands_registerCommand_self]
  · rw [ApplyResource_fst, RegisteredCommands_registerCommand_self]
  · rw [ReplaceResource_fst, RegisteredCommands_registerCommand_self]
  · rw [UpdateResource_fst, RegisteredCommands_registerCommand_self]

/-- C7: the canned response is looked up by name only.  For two objects with the
same name that differ in group, kind or namespace the keys differ, each of
`CreateResource`, `ApplyResource` and `ReplaceResource` returns the same
(output, error) pair for both, and a call on the first object followed by a
call on the second is recorded once under each of the two keys. -/
theorem response_keyed_by_name (r : MockResourceOps) (a b : Unstructured)
    (hname : a.GetName = b.GetName)
    (hdiff : a.Group ≠ b.Group ∨ a.Kind ≠ b.Kind ∨ a.Namespace ≠ b.Namespace)
    (ctx : Context) (d : DryRunStrategy) (force validate serverSideApply : Bool)
    (manager : String) (serverSideDiff : Bool) :
    GetResourceKey a ≠ GetResourceKey b ∧
    ((r.CreateResource ctx a d validate).2 =
        ((r.CreateResource ctx a d validate).1.CreateResource ctx b d validate).2 ∧
      ((r.CreateResource ctx a d validate).1.CreateResource ctx b d
          validate).1.RegisteredCommands (GetResourceKey a) =
        r.RegisteredCommands (GetResourceKey a) ++
          [{ Command := "create", Validate := validate, DryRunStrategy := d }] ∧
      ((r.CreateResource ctx a d validate).1.CreateResource ctx b d
          validate).1.RegisteredCommands (GetResourceKey b) =
        r.RegisteredCommands (GetResourceKey b) ++
          [{ Command := "create", Validate := validate, DryRunStrategy := d }]) ∧
    ((r.ApplyResource ctx a d force validate serverSideApply manager serverSideDiff).2 =
        ((r.ApplyResource ctx a d force validate serverSideApply manager
          serverSideDiff).1.ApplyResource ctx b d force validate serverSideApply manager
          serverSideDiff).2 ∧
      ((r.ApplyResource ctx a d force validate serverSideApply manager
          serverSideDiff).1.ApplyResource ctx b d force validate serverSideApply manager
          serverSideDiff).1.RegisteredCommands (GetResourceKey a) =
        r.RegisteredCommands (GetResourceKey a) ++
          [{ Command := "apply", Validate := validate, ServerSideApply := serverSideApply,
             ServerSideApplyManager := manager, Force := force, DryRunStrategy := d }] ∧
      ((r.ApplyResource ctx a d force validate serverSideApply manager
          serverSideDiff).1.ApplyResource ctx b d force validate serverSideApply manager
          serverSideDiff).1.RegisteredCommands (GetResourceKey b) =
        r.RegisteredCommands (GetResourceKey b) ++
          [{ Command := "apply", Validate := validate, ServerSideApply := serverSideApply,
             ServerSideApplyManager := manager, Force := force, DryRunStrategy := d }]) ∧
    ((r.ReplaceResource ctx a d force).2 =
        ((r.ReplaceResource ctx a d force).1.ReplaceResource ctx b d force).2 ∧
      ((r.ReplaceResource ctx a d force).1.ReplaceResource ctx b d
          force).1.RegisteredCommands (GetResourceKey a) =
        r.RegisteredCommands (GetResourceKey a) ++
          [{ Command := "replace", Force := force, DryRunStrategy := d }] ∧
      ((r.ReplaceResource ctx a d force).1.ReplaceResource ctx b d
          force).1.RegisteredCommands (GetResourceKey b) =
        r.RegisteredCommands (GetResourceKey b) ++
          [{ Command := "replace", Force := force, DryRunStrategy := d }]) := by
  have hne : GetResourceKey a ≠ GetResourceKey b := GetResourceKey_ne a b hdiff
  refine ⟨hne, ⟨?_, ?_, ?_⟩, ⟨?_, ?_, ?_⟩, ⟨?_, ?_, ?_⟩⟩
  · rw [CreateResource_snd, CreateResource_snd, CreateResource_fst,
      Commands_registerCommand, hname]
  · rw [CreateResource_fst, CreateResource_fst,
      RegisteredCommands_registerCommand_other _ _ _ _ hne,
      RegisteredCommands_registerCommand_self]
  · rw [CreateResource_fst, CreateResource_fst, RegisteredCommands_registerCommand_self,
      RegisteredCommands_registerCommand_other _ _ _ _ hne.symm]
  · rw [ApplyResource_snd, ApplyResource_snd, ApplyResource_fst,
      Commands_registerCommand, hname]
  · rw [ApplyResource_fst, ApplyResource_fst,
      RegisteredCommands_registerCommand_other _ _ _ _ hne,
      RegisteredCommands_registerCommand_self]
  · rw [ApplyResource_fst, ApplyResource_fst, RegisteredCommands_registerCommand_self,
      RegisteredCommands_registerCommand_other _ _ _ _ hne.symm]
  · rw [ReplaceResource_snd, ReplaceResource_snd, ReplaceResource_fst,
      Commands_registerCommand, hname]
  · rw [ReplaceResource_fst, ReplaceResource_fst,
      RegisteredCommands_registerCommand_other _ _ _ _ hne,
      RegisteredCommands_registerCommand_self]
  · rw [ReplaceResource_fst, ReplaceResource_fst, RegisteredCommands_registerCommand_self,
      RegisteredCommands_registerCommand_other _ _ _ _ hne.symm]

/-- Witness of C7: a pod and a service that are both named `foo`. -/
theorem response_keyed_by_name_witness :
    GetResourceKey fooPod ≠ GetResourceKey fooService ∧
    (({ Commands := fooFails } : MockResourceOps).CreateResource () fooPod
        .DryRunNone true).2 =
      ((({ Commands := fooFails } : MockResourceOps).CreateResource () fooPod
        .DryRunNone true).1.CreateResource () fooService .DryRunNone true).2 :=
  ⟨(response_keyed_by_name { Commands := fooFails } fooPod fooService rfl
      (Or.inr (Or.inl (by decide))) () .DryRunNone false true false "" false).1,
   (response_keyed_by_name { Commands := fooFails } fooPod fooService rfl
      (Or.inr (Or.inl (by decide))) () .DryRunNone false true false "" false).2.1.1⟩

/-- C8: the call history is append-only: for every call of a public method and
every key, the history of the key before the call is an initial segment of its
history after the call. -/
theorem history_append_only (r : MockResourceOps) (c : Call) (k : ResourceKey) :
    r.RegisteredCommands k <+: (r.call c).RegisteredCommands k := by
  obtain ⟨added, h⟩ := RegisteredCommands_call r c k
  exact ⟨added, h.symm⟩

/-- C9: each of `GetLastValidate`, `GetLastForce`, `GetLastServerSideApply` and
`GetLastServerSideApplyManager` fails on key `k` exactly when `k` has no
recorded command; in particular all four fail on a mock on which nothing was
invoked. -/
theorem last_accessors_fail_iff (r : MockResourceOps) (commands : CommandTable)
    (k : ResourceKey) :
    ((r.GetLastValidate k = none ↔ r.RegisteredCommands k = []) ∧
     (r.GetLastForce k = none ↔ r.RegisteredCommands k = []) ∧
     (r.GetLastServerSideApply k = none ↔ r.RegisteredCommands k = []) ∧
     (r.GetLastServerSideApplyManager k = none ↔ r.RegisteredCommands k = [])) ∧
    (({ Commands := commands } : MockResourceOps).GetLastValidate k = none ∧
     ({ Commands := commands } : MockResourceOps).GetLastForce k = none ∧
     ({ Commands := commands } : MockResourceOps).GetLastServerSideApply k = none ∧
     ({ Commands := commands } : MockResourceOps).GetLastServerSideApplyManager k = none) := by
  have h := lastCommand_eq_none_iff r k
  refine ⟨⟨?_, ?_, ?_, ?_⟩, ?_, ?_, ?_, ?_⟩
  · simpa [GetLastValidate, RegisteredCommands] using h
  · simpa [GetLastForce, RegisteredCommands] using h
  · simpa [GetLastServerSideApply, RegisteredCommands] using h
  · simpa [GetLastServerSideApplyManager, RegisteredCommands] using h
  all_goals rfl

/-- C10: in a reachable state `GetLastResourceCommand k` returns the empty string
when no key has any history, fails when some key has history but `k` has none,
and returns the `Command` of the last record of `k` when `k` has history. -/
theorem GetLastResourceCommand_cases (r : MockResourceOps) (hr : Reachable r)
    (k : ResourceKey) :
    ((∀ k', r.RegisteredCommands k' = []) → r.GetLastResourceCommand k = some "") ∧
    ((∃ k', r.RegisteredCommands k' ≠ []) → r.RegisteredCommands k = [] →
      r.GetLastResourceCommand k = none) ∧
    (∀ h : r.RegisteredCommands k ≠ [],
      r.GetLastResourceCommand k = some ((r.RegisteredCommands k).getLast h).Command) := by
  refine ⟨?_, ?_, ?_⟩
  · intro h
    have hnil := (reachable_nil_iff r hr).mpr h
    simp [GetLastResourceCommand, hnil]
  · rintro ⟨k', hk'⟩ hk
    unfold GetLastResourceCommand
    cases hc : r.commandsPerResource with
    | none => exact absurd (RegisteredCommands_of_fresh r hc k') hk'
    | some m =>
      have : r.lastCommand k = none := (lastCommand_eq_none_iff r k).mpr hk
      simp [this]
  · intro h
    unfold GetLastResourceCommand
    cases hc : r.commandsPerResource with
    | none => exact absurd (RegisteredCommands_of_fresh r hc k) h
    | some m =>
      have : r.lastCommand k = some ((r.RegisteredCommands k).getLast h) :=
        lastCommand_of_ne_nil r k h
      simp [this]

/-- Witness of C10: a fresh mock, and the mock after one create of `fooPod`
queried for `barPod` and for `fooPod`. -/
theorem GetLastResourceCommand_cases_witness :
    ({ Commands := fooCreated } : MockResourceOps).GetLastResourceCommand
        (GetResourceKey barPod) = some "" ∧
    (({ Commands := fooCreated } : MockResourceOps).call
        (.Op (.Create () fooPod .DryRunNone true))).GetLastResourceCommand
        (GetResourceKey barPod) = none ∧
    (({ Commands := fooCreated } : MockResourceOps).call
        (.Op (.Create () fooPod .DryRunNone true))).GetLastResourceCommand
        (GetResourceKey fooPod) = some "create" :=
  ⟨(GetLastResourceCommand_cases { Commands := fooCreated } (Reachable.fresh fooCreated)
      (GetResourceKey barPod)).1 (fun _ => rfl),
   (GetLastResourceCommand_cases _ (Reachable.step _ (Reachable.fresh fooCreated))
      (GetResourceKey barPod)).2.1 ⟨GetResourceKey fooPod, by decide⟩ (by decide),
   (GetLastResourceCommand_cases _ (Reachable.step _ (Reachable.fresh fooCreated))
      (GetResourceKey fooPod)).2.2 (by decide)⟩

/-- C11: each of the four operations leaves the history of every key other than
the object's own key as it was, and leaves the table of canned responses (and
the injected get-resource function) as it was. -/
theorem operation_frame (r : MockResourceOps) (obj : Unstructured) (k' : ResourceKey)
    (hk : k' ≠ GetResourceKey obj)
    (ctx : Context) (d : DryRunStrategy) (force validate serverSideApply : Bool)
    (manager : String) (serverSideDiff : Bool) :
    ((r.CreateResource ctx obj d validate).1.RegisteredCommands k' = r.RegisteredCommands k' ∧
      (r.CreateResource ctx obj d validate).1.Commands = r.Commands ∧
      (r.CreateResource ctx obj d validate).1.getResourceFunc = r.getResourceFunc) ∧
    ((r.ApplyResource ctx obj d force validate serverSideApply manager
        serverSideDiff).1.RegisteredCommands k' = r.RegisteredCommands k' ∧
      (r.ApplyResource ctx obj d force validate serverSideApply manager
        serverSideDiff).1.Commands = r.Commands ∧
      (r.ApplyResource ctx obj d force validate serverSideApply manager
        serverSideDiff).1.getResourceFunc = r.getResourceFunc) ∧
    ((r.ReplaceResource ctx obj d force).1.RegisteredCommands k' = r.RegisteredCommands k' ∧
      (r.ReplaceResource ctx obj d force).1.Commands = r.Commands ∧
      (r.ReplaceResource ctx obj d force).1.getResourceFunc = r.getResourceFunc) ∧
    ((r.UpdateResource ctx obj d).1.RegisteredCommands k' = r.RegisteredCommands k' ∧
      (r.UpdateResource ctx obj d).1.Commands = r.Commands ∧
      (r.UpdateResource ctx obj d).1.getResourceFunc = r.getResourceFunc) := by
  refine ⟨⟨?_, ?_, ?_⟩, ⟨?_, ?_, ?_⟩, ⟨?_, ?_, ?_⟩, ⟨?_, ?_, ?_⟩⟩
  · rw [CreateResource_fst, RegisteredCommands_registerCommand_other _ _ _ _ hk]
  · rw [CreateResource_fst]; rfl
  · rw [CreateResource_fst]; rfl
  · rw [ApplyResource_fst, RegisteredCommands_registerCommand_other _ _ _ _ hk]
  · rw [ApplyResource_fst]; rfl
  · rw [ApplyResource_fst]; rfl
  · rw [ReplaceResource_fst, RegisteredCommands_registerCommand_other _ _ _ _ hk]
  · rw [ReplaceResource_fst]; rfl
  · rw [ReplaceResource_fst]; rfl
  · rw [UpdateResource_fst, RegisteredCommands_registerCommand_other _ _ _ _ hk]
  · rw [UpdateResource_fst]; rfl
  · rw [UpdateResource_fst]; rfl

/-- Witness of C11: after a create of `fooPod`, an update of `barPod` leaves the
history of `fooPod` and the table as they were. -/
theorem operation_frame_witness :
    GetResourceKey fooPod ≠ GetResourceKey barPod ∧
    ((({ Commands := fooFails } : MockResourceOps).invoke
        (.Create () fooPod .DryRunNone true)).UpdateResource () barPod
        .DryRunServer).1.RegisteredCommands (GetResourceKey fooPod) =
      [{ Command := "create", Validate := true }] ∧
    ((({ Commands := fooFails } : MockResourceOps).invoke
        (.Create () fooPod .DryRunNone true)).UpdateResource () barPod
        .DryRunServer).1.Commands = fooFails :=
  ⟨by decide,
   (operation_frame
      (({ Commands := fooFails } : MockResourceOps).invoke
        (.Create () fooPod .DryRunNone true))
      barPod (GetResourceKey fooPod) (by decide) () .DryRunServer false false false ""
      false).2.2.2.1,
   (operation_frame
      (({ Commands := fooFails } : MockResourceOps).invoke
        (.Create () fooPod .DryRunNone true))
      barPod (GetResourceKey fooPod) (by decide) () .DryRunServer false false false ""
      false).2.2.2.2.1⟩

/-- C13: `UpdateResource` returns the object it was given, with or without a
canned response for the object's name; with a canned response the error is
the entry's `Err`, and the entry's `Output` has no influence on what is
returned. -/
theorem update_returns_input (r : MockResourceOps) (ctx : Context) (obj : Unstructured)
    (d : DryRunStrategy) :
    (r.UpdateResource ctx obj d).2.1 = obj ∧
    (∀ out, r.Commands.lookup obj.GetName = some out →
      (r.UpdateResource ctx obj d).2 = (obj, out.Err)) ∧
    (∀ (r' : MockResourceOps) (out out' : KubectlOutput),
      r.Commands.lookup obj.GetName = some out →
      r'.Commands.lookup obj.GetName = some out' →
      out.Err = out'.Err →
      (r.UpdateResource ctx obj d).2 = (r'.UpdateResource ctx obj d).2) := by
  refine ⟨?_, ?_, ?_⟩
  · rw [UpdateResource_snd]
    split <;> rfl
  · intro out h
    rw [UpdateResource_snd, h]
  · intro r' out out' h h' he
    rw [UpdateResource_snd, UpdateResource_snd, h, h']
    exact congrArg (fun e => (obj, e)) he

/-- Witness of C13: with the canned entry (empty output, error `boom`) for `foo`,
an update of `fooPod` returns `fooPod` and the error `boom`; with the entry
(output `created`, no error) it returns `fooPod` and no error. -/
theorem update_returns_input_witness :
    (({ Commands := fooFails } : MockResourceOps).UpdateResource () fooPod
        .DryRunNone).2 = (fooPod, some "boom") ∧
    (({ Commands := fooCreated } : MockResourceOps).UpdateResource () fooPod
        .DryRunNone).2 = (fooPod, none) :=
  ⟨(update_returns_input { Commands := fooFails } () fooPod .DryRunNone).2.1
      { Output := "", Err := some "boom" } (by decide),
   (update_returns_input { Commands := fooCreated } () fooPod .DryRunNone).2.1
      { Output := "created", Err := none } (by decide)⟩

/-- Counterexample to C14 as stated: `GetLastResourceCommand` is a read accessor
other than `GetLastServerSideApplyManager`, and it takes `recordLock` in
exclusive mode; so it is not the case that every accessor other than
`GetLastServerSideApplyManager` takes the lock in shared mode. -/
theorem only_manager_exclusive_refuted :
    (Call.GetLastResourceCommand (GetResourceKey fooPod)).isAccessor = true ∧
    (∀ k, Call.GetLastResourceCommand (GetResourceKey fooPod) ≠
      Call.GetLastServerSideApplyManager k) ∧
    (Call.GetLastResourceCommand (GetResourceKey fooPod)).lockMode =
      some LockMode.exclusive ∧
    ¬ (∀ c : Call, c.isAccessor = true →
        (∀ k, c ≠ Call.GetLastServerSideApplyManager k) →
        c.lockMode = some LockMode.shared) := by
  refine ⟨rfl, fun k h => Call.noConfusion h, rfl, fun hall => ?_⟩
  have h := hall (Call.GetLastResourceCommand (GetResourceKey fooPod)) rfl
    (fun k h => Call.noConfusion h)
  simp [Call.lockMode] at h

/-- C14, amended: a read accessor of the call history takes `recordLock` in
exclusive mode exactly when it is `GetLastServerSideApplyManager` or
`GetLastResourceCommand`, and in shared mode otherwise; `registerCommand` takes
it in exclusive mode. -/
theorem accessor_lock_modes (c : Call) (hc : c.isAccessor = true) :
    (c.lockMode = some LockMode.exclusive ↔
      (∃ k, c = Call.GetLastServerSideApplyManager k) ∨
      (∃ k, c = Call.GetLastResourceCommand k)) ∧
    (c.lockMode = some LockMode.shared ↔
      ¬ ((∃ k, c = Call.GetLastServerSideApplyManager k) ∨
         (∃ k, c = Call.GetLastResourceCommand k))) ∧
    registerCommandLockMode = LockMode.exclusive := by
  cases c with
  | Op op => simp [Call.isAccessor] at hc
  | WithGetResourceFunc f => simp [Call.isAccessor] at hc
  | GetLastValidate key => simp [Call.lockMode, registerCommandLockMode]
  | GetLastServerSideApplyManager key => simp [Call.lockMode, registerCommandLockMode]
  | GetLastServerSideApply key => simp [Call.lockMode, registerCommandLockMode]
  | GetLastForce key => simp [Call.lockMode, registerCommandLockMode]
  | GetLastResourceCommand key => simp [Call.lockMode, registerCommandLockMode]
  | RegisteredCommands key => simp [Call.lockMode, registerCommandLockMode]

/-- Witness of C14, amended: `GetLastValidate` is an accessor and takes the lock
in shared mode. -/
theorem accessor_lock_modes_witness :
    (Call.GetLastValidate (GetResourceKey fooPod)).isAccessor = true ∧
    (Call.GetLastValidate (GetResourceKey fooPod)).lockMode = some LockMode.shared :=
  ⟨rfl,
   (accessor_lock_modes (Call.GetLastValidate (GetResourceKey fooPod)) rfl).2.1.mpr
     (by
       rintro (⟨k, h⟩ | ⟨k, h⟩)
       · exact Call.noConfusion h
       · exact Call.noConfusion h)⟩

/-- C15: the `serverSideDiff` argument of `ApplyResource` has no effect: two calls
that differ only in it return the same (output, error) pair and leave the same
mock, and the record they append does not depend on it. -/
theorem serverSideDiff_ignored (r : MockResourceOps) (ctx : Context) (obj : Unstructured)
    (d : DryRunStrategy) (force validate serverSideApply : Bool) (manager : String)
    (serverSideDiff1 serverSideDiff2 : Bool) :
    r.ApplyResource ctx obj d force validate serverSideApply manager serverSideDiff1 =
      r.ApplyResource ctx obj d force validate serverSideApply manager serverSideDiff2 ∧
    (r.ApplyResource ctx obj d force validate serverSideApply manager
        serverSideDiff1).1.RegisteredCommands (GetResourceKey obj) =
      r.RegisteredCommands (GetResourceKey obj) ++
        [{ Command := "apply", Validate := validate, ServerSideApply := serverSideApply,
           ServerSideApplyManager := manager, Force := force, DryRunStrategy := d }] ∧
    (r.ApplyResource ctx obj d force validate serverSideApply manager
        serverSideDiff2).1.RegisteredCommands (GetResourceKey obj) =
      r.RegisteredCommands (GetResourceKey obj) ++
        [{ Command := "apply", Validate := validate, ServerSideApply := serverSideApply,
           ServerSideApplyManager := manager, Force := force, DryRunStrategy := d }] := by
  refine ⟨rfl, ?_, ?_⟩
  · rw [ApplyResource_fst, RegisteredCommands_registerCommand_self]
  · rw [ApplyResource_fst, RegisteredCommands_registerCommand_self]

/-- C16: in every state that a sequence of public calls on a freshly constructed
mock arrives at (each call having returned, or panicked and been recovered
from; a sequence in which a call blocks arrives nowhere), the history map is
`nil` exactly when none of the calls was a recording operation, every key
present in the map has a non-empty history, and the history of `k` is empty
exactly when none of the calls was a recording operation on an object with key
`k`.  `RegisteredCommands k` never panics there; it returns that history
whenever the write lock is not held, in particular whenever all the calls
returned. -/
theorem history_map_invariant (commands : CommandTable) (calls : List Call)
    (s : LockedMock) (k : ResourceKey)
    (hrun : (LockedMock.fresh commands).callAll calls = some s) :
    (s.mock.commandsPerResource = none ↔ ∀ c ∈ calls, c.recordedKey = none) ∧
    s.mock.EntriesNonEmpty ∧
    (s.mock.RegisteredCommands k = [] ↔ ∀ c ∈ calls, c.recordedKey ≠ some k) ∧
    (∀ s1, s.RegisteredCommands k ≠ Outcome.panicked s1) ∧
    (s.recordLock.writer = false →
      s.RegisteredCommands k = Outcome.returned (s.mock.RegisteredCommands k) s) ∧
    ((LockedMock.fresh commands).allReturn calls = true →
      s.RegisteredCommands k = Outcome.returned (s.mock.RegisteredCommands k) s) := by
  obtain ⟨h1, h2, h3⟩ := LockedMock.callAll_data calls (LockedMock.fresh commands) s hrun
  refine ⟨?_, ?_, ?_, ?_, ?_, ?_⟩
  · rw [h1]
    exact ⟨fun h => h.2, fun h => ⟨rfl, h⟩⟩
  · apply h2
    intro m hm
    exact absurd hm (by simp [LockedMock.fresh])
  · rw [h3 k]
    exact ⟨fun h => h.2, fun h => ⟨rfl, h⟩⟩
  · exact fun s1 => LockedMock.RegisteredCommands_ne_panicked s k s1
  · exact fun hw => LockedMock.RegisteredCommands_returned s k hw
  · intro hall
    obtain ⟨s2, hs2, hl⟩ := LockedMock.callAll_of_allReturn calls (LockedMock.fresh commands) hall
    rw [hrun] at hs2
    have hs : s = s2 := Option.some.inj hs2
    subst hs
    apply LockedMock.RegisteredCommands_returned
    rw [hl]
    rfl

/-- Witness of C16: a create of `fooPod`, a successful `GetLastValidate` on its
key, a `GetLastForce` on the key of `barPod` that panics and is recovered from
(its read lock stays held), and then `RegisteredCommands`. -/
theorem history_map_invariant_witness :
    (LockedMock.fresh fooCreated).callAll
        [.Op (.Create () fooPod .DryRunNone true),
         .GetLastValidate (GetResourceKey fooPod),
         .GetLastForce (GetResourceKey barPod)] =
      some { mock := ({ Commands := fooCreated } : MockResourceOps).invoke
               (.Create () fooPod .DryRunNone true),
             recordLock := { readers := 1 } } ∧
    LockedMock.RegisteredCommands
        { mock := ({ Commands := fooCreated } : MockResourceOps).invoke
            (.Create () fooPod .DryRunNone true),
          recordLock := { readers := 1 } } (GetResourceKey fooPod) =
      Outcome.returned [{ Command := "create", Validate := true }]
        { mock := ({ Commands := fooCreated } : MockResourceOps).invoke
            (.Create () fooPod .DryRunNone true),
          recordLock := { readers := 1 } } ∧
    (({ Commands := fooCreated } : MockResourceOps).invoke
        (.Create () fooPod .DryRunNone true)).RegisteredCommands (GetResourceKey barPod) = [] :=
  ⟨rfl,
   (history_map_invariant fooCreated
      [.Op (.Create () fooPod .DryRunNone true),
       .GetLastValidate (GetResourceKey fooPod),
       .GetLastForce (GetResourceKey barPod)]
      { mock := ({ Commands := fooCreated } : MockResourceOps).invoke
          (.Create () fooPod .DryRunNone true),
        recordLock := { readers := 1 } }
      (GetResourceKey fooPod) rfl).2.2.2.2.1 rfl,
   ((history_map_invariant fooCreated
      [.Op (.Create () fooPod .DryRunNone true),
       .GetLastValidate (GetResourceKey fooPod),
       .GetLastForce (GetResourceKey barPod)]
      { mock := ({ Commands := fooCreated } : MockResourceOps).invoke
          (.Create () fooPod .DryRunNone true),
        recordLock := { readers := 1 } }
      (GetResourceKey barPod) rfl).2.2.1).mpr
     (by
       intro c hc
       simp only [List.mem_cons, List.mem_singleton, List.not_mem_nil, or_false] at hc
       rcases hc with rfl | rfl | rfl
       · simp only [Call.recordedKey, Operation.obj]
         decide
       · simp [Call.recordedKey]
       · simp [Call.recordedKey])⟩

end MockResourceOps

end Kubetest
